import Mathlib

/-!
Verification of the keymanager routes module
(`packages/api/src/keymanager/routes.ts`): the status enumerations, the
route table, the wire request shapes, the request serializers, the
return-type encodings, the gas-limit input validator, and the delete-keys
slashing-protection contract.

Machine numbers are modelled as `Nat`/`Int`; JavaScript string-to-number
conversion is modelled on optional-sign decimal integer strings (the only
shapes the routes module itself produces); code that can throw returns
`Except`.
-/

namespace Keymanager

/-- The decimal digit character for a digit value below ten. -/
def digitChar (n : Nat) : Char := Char.ofNat (48 + n)

/-- Fuel-indexed base-10 rendering of a natural number, most significant
digit first; any fuel above the number renders it completely. -/
def natToDigitsFuel (fuel n : Nat) : List Char :=
  match fuel with
  | 0 => []
  | f + 1 =>
    if n < 10 then [digitChar n]
    else natToDigitsFuel f (n / 10) ++ [digitChar (n % 10)]

/-- Base-10 digits of a natural number, most significant first. -/
def natToDigits (n : Nat) : List Char := natToDigitsFuel (n + 1) n

/-- Embedding of JavaScript `toString(10)` on an integer value, which is
also what template interpolation of an integer produces. -/
def intToDecimalStr (g : Int) : String :=
  if g < 0 then String.mk ('-' :: natToDigits g.natAbs)
  else String.mk (natToDigits g.natAbs)

/-- Value of a digit list read left to right in base 10 (character code
minus 48 at each position). -/
def decValue (l : List Char) : Nat :=
  l.foldl (fun a c => a * 10 + (c.toNat - 48)) 0

/-- Reads a non-empty all-digit character list as a natural number, and is
`none` (not a number) on every other list. -/
def decDigits (l : List Char) : Option Nat :=
  if l = [] then none
  else if l.all Char.isDigit then some (decValue l) else none

/-- Drops leading and trailing whitespace, as JavaScript `trim` does. -/
def trimChars (l : List Char) : List Char :=
  ((l.dropWhile Char.isWhitespace).reverse.dropWhile Char.isWhitespace).reverse

/-- Embedding of JavaScript `Number(string)` restricted to optional-sign
decimal integer strings: surrounding whitespace is ignored, the empty
string converts to `0`, and every non-decimal shape is NaN (`none`). -/
def strToNumber (s : String) : Option Int :=
  if trimChars s.toList = [] then some 0
  else if (trimChars s.toList).head? = some '-' then
    (decDigits (trimChars s.toList).tail).map (fun n => -(Int.ofNat n))
  else if (trimChars s.toList).head? = some '+' then
    (decDigits (trimChars s.toList).tail).map (fun n => Int.ofNat n)
  else (decDigits (trimChars s.toList)).map (fun n => Int.ofNat n)

/-- The `string | number` union accepted by `parseGasLimit`. -/
inductive GasLimitInput
  | str (s : String)
  | num (n : Int)
deriving DecidableEq

/-- Template interpolation of the input, as used by the trim-empty check of
`parseGasLimit`. -/
def gasLimitToStr : GasLimitInput → String
  | .str s => s
  | .num n => intToDecimalStr n

/-- JavaScript `Number(...)` conversion of the input union. -/
def numberOf : GasLimitInput → Option Int
  | .str s => strToNumber s
  | .num n => some n

/-- Embedding of `parseGasLimit` (routes.ts lines 353-362): throws when the
input's string form trims to empty, when conversion yields NaN, or when the
converted number is zero; returns the converted number otherwise. -/
def parseGasLimit (inp : GasLimitInput) : Except String Int :=
  if trimChars (gasLimitToStr inp).toList = [] then
    Except.error "Not valid Gas Limit"
  else
    match numberOf inp with
    | none => Except.error "Gas Limit is not valid gasLimit=NaN"
    | some g =>
      if g = 0 then
        Except.error ("Gas Limit is not valid gasLimit=" ++ intToDecimalStr g)
      else Except.ok g

lemma digitChar_toNat : ∀ k, k < 10 → (digitChar k).toNat = 48 + k := by decide

lemma digitChar_isDigit : ∀ k, k < 10 → (digitChar k).isDigit = true := by decide

lemma natToDigitsFuel_succ (f n : Nat) :
    natToDigitsFuel (f + 1) n =
      if n < 10 then [digitChar n]
      else natToDigitsFuel f (n / 10) ++ [digitChar (n % 10)] := rfl

lemma natToDigitsFuel_ne_nil : ∀ f n, n < f → natToDigitsFuel f n ≠ [] := by
  intro f
  induction f with
  | zero => intro n h; omega
  | succ f ih =>
    intro n _
    rw [natToDigitsFuel_succ]
    by_cases h10 : n < 10
    · simp [h10]
    · simp [h10]

lemma natToDigitsFuel_all_digits :
    ∀ f n, n < f → (natToDigitsFuel f n).all Char.isDigit = true := by
  intro f
  induction f with
  | zero => intro n h; omega
  | succ f ih =>
    intro n h
    rw [natToDigitsFuel_succ]
    by_cases h10 : n < 10
    · simp [h10, digitChar_isDigit n h10]
    · have hlt : n / 10 < n := Nat.div_lt_self (by omega) (by omega)
      have hf : n / 10 < f := by omega
      simp [h10, List.all_append, ih (n / 10) hf,
        digitChar_isDigit (n % 10) (Nat.mod_lt _ (by omega))]

lemma decValue_append_singleton (l : List Char) (c : Char) :
    decValue (l ++ [c]) = decValue l * 10 + (c.toNat - 48) := by
  simp [decValue, List.foldl_append]

lemma natToDigitsFuel_val :
    ∀ f n, n < f → decValue (natToDigitsFuel f n) = n := by
  intro f
  induction f with
  | zero => intro n h; omega
  | succ f ih =>
    intro n h
    rw [natToDigitsFuel_succ]
    by_cases h10 : n < 10
    · rw [if_pos h10]
      simp only [decValue, List.foldl_cons, List.foldl_nil]
      rw [digitChar_toNat n h10]
      omega
    · rw [if_neg h10]
      have hlt : n / 10 < n := Nat.div_lt_self (by omega) (by omega)
      have hf : n / 10 < f := by omega
      rw [decValue_append_singleton, ih (n / 10) hf,
        digitChar_toNat (n % 10) (Nat.mod_lt _ (by omega))]
      omega

lemma natToDigits_ne_nil (n : Nat) : natToDigits n ≠ [] :=
  natToDigitsFuel_ne_nil (n + 1) n (by omega)

lemma natToDigits_all_digits (n : Nat) : (natToDigits n).all Char.isDigit = true :=
  natToDigitsFuel_all_digits (n + 1) n (by omega)

lemma decValue_natToDigits (n : Nat) : decValue (natToDigits n) = n :=
  natToDigitsFuel_val (n + 1) n (by omega)

lemma decDigits_natToDigits (n : Nat) : decDigits (natToDigits n) = some n := by
  rw [decDigits, if_neg (natToDigits_ne_nil n), if_pos (natToDigits_all_digits n),
    decValue_natToDigits]

lemma not_whitespace_of_isDigit (c : Char) (h : c.isDigit = true) :
    c.isWhitespace = false := by
  rcases eq_or_ne c ' ' with rfl | h1
  · exact absurd h (by decide)
  rcases eq_or_ne c '\t' with rfl | h2
  · exact absurd h (by decide)
  rcases eq_or_ne c '\r' with rfl | h3
  · exact absurd h (by decide)
  rcases eq_or_ne c '\n' with rfl | h4
  · exact absurd h (by decide)
  simp [Char.isWhitespace, h1, h2, h3, h4]

lemma dropWhile_whitespace_id (l : List Char)
    (h : ∀ c ∈ l, c.isWhitespace = false) :
    l.dropWhile Char.isWhitespace = l := by
  cases l with
  | nil => rfl
  | cons c t => simp [List.dropWhile_cons, h c (List.mem_cons_self c t)]

lemma trimChars_id (l : List Char) (h : ∀ c ∈ l, c.isWhitespace = false) :
    trimChars l = l := by
  rw [trimChars, dropWhile_whitespace_id l h,
    dropWhile_whitespace_id l.reverse (fun c hc => h c (List.mem_reverse.mp hc)),
    List.reverse_reverse]

lemma natToDigits_not_whitespace (n : Nat) :
    ∀ c ∈ natToDigits n, c.isWhitespace = false := fun c hc =>
  not_whitespace_of_isDigit c (List.all_eq_true.mp (natToDigits_all_digits n) c hc)

lemma isDigit_ne_sign (c : Char) (h : c.isDigit = true) : c ≠ '-' ∧ c ≠ '+' := by
  constructor
  · rintro rfl; exact absurd h (by decide)
  · rintro rfl; exact absurd h (by decide)

/-- Converting the canonical base-10 rendering of an integer recovers it. -/
lemma strToNumber_intToDecimalStr (g : Int) :
    strToNumber (intToDecimalStr g) = some g := by
  by_cases hneg : g < 0
  · have hlist : (intToDecimalStr g).toList = '-' :: natToDigits g.natAbs := by
      rw [intToDecimalStr, if_pos hneg]
      rfl
    have htrim : trimChars (intToDecimalStr g).toList = '-' :: natToDigits g.natAbs := by
      rw [hlist]
      exact trimChars_id _ (by
        intro c hc
        rcases List.mem_cons.mp hc with rfl | hc'
        · decide
        · exact natToDigits_not_whitespace g.natAbs c hc')
    rw [strToNumber]
    simp only [htrim]
    rw [if_neg (by simp), if_pos (by simp)]
    simp only [List.tail_cons, decDigits_natToDigits, Option.map_some']
    congr 1
    simp only [Int.ofNat_eq_coe]
    omega
  · have hlist : (intToDecimalStr g).toList = natToDigits g.natAbs := by
      rw [intToDecimalStr, if_neg hneg]
      rfl
    have htrim : trimChars (intToDecimalStr g).toList = natToDigits g.natAbs := by
      rw [hlist]
      exact trimChars_id _ (natToDigits_not_whitespace g.natAbs)
    obtain ⟨c, t, hct⟩ := List.exists_cons_of_ne_nil (natToDigits_ne_nil g.natAbs)
    have hcdig : c.isDigit = true := by
      have := natToDigits_all_digits g.natAbs
      rw [hct, List.all_cons, Bool.and_eq_true] at this
      exact this.1
    obtain ⟨hminus, hplus⟩ := isDigit_ne_sign c hcdig
    rw [strToNumber]
    simp only [htrim, hct]
    rw [if_neg (by simp), if_neg (by simp [hminus]), if_neg (by simp [hplus])]
    rw [← hct, decDigits_natToDigits]
    simp only [Option.map_some']
    congr 1
    simp only [Int.ofNat_eq_coe]
    omega

lemma intToDecimalStr_toList_ne_nil (g : Int) : (intToDecimalStr g).toList ≠ [] := by
  by_cases hneg : g < 0
  · rw [intToDecimalStr, if_pos hneg]; simp
  · rw [intToDecimalStr, if_neg hneg]
    exact natToDigits_ne_nil g.natAbs

lemma trimChars_intToDecimalStr (g : Int) :
    trimChars (intToDecimalStr g).toList = (intToDecimalStr g).toList := by
  by_cases hneg : g < 0
  · rw [intToDecimalStr, if_pos hneg]
    exact trimChars_id _ (by
      intro c hc
      rcases List.mem_cons.mp hc with rfl | hc'
      · decide
      · exact natToDigits_not_whitespace g.natAbs c hc')
  · rw [intToDecimalStr, if_neg hneg]
    exact trimChars_id _ (natToDigits_not_whitespace g.natAbs)

/-- `parseGasLimit` on the canonical rendering of a nonzero integer. -/
lemma parseGasLimit_canonical (g : Int) (hg : g ≠ 0) :
    parseGasLimit (GasLimitInput.str (intToDecimalStr g)) = Except.ok g := by
  rw [parseGasLimit]
  simp only [gasLimitToStr, numberOf]
  rw [trimChars_intToDecimalStr, if_neg (intToDecimalStr_toList_ne_nil g),
    strToNumber_intToDecimalStr]
  simp [hg]

/-- C3 counterexample: the claim says every non-rejected input yields a
normalized unsigned integer, but `parseGasLimit "-5"` succeeds with the
negative number `-5` (the code returns `Number(input)` unchanged). -/
theorem parseGasLimit_negative_counterexample :
    parseGasLimit (GasLimitInput.str "-5") = Except.ok (-5) ∧ (-5 : Int) < 0 :=
  ⟨rfl, by decide⟩

/-- C3 (amended): `parseGasLimit` fails exactly when the trimmed input is
empty, non-numeric (NaN after conversion), or converts to zero; on every
other input it succeeds and returns the converted numeric value of the
input (which is not necessarily an unsigned integer); in particular
`parseGasLimit "0"` fails, `parseGasLimit "30000000"` returns `30000000`,
`parseGasLimit ""` fails, and `parseGasLimit "abc"` fails. -/
theorem parseGasLimit_validation :
    (∀ inp, (∃ g, parseGasLimit inp = Except.ok g) ↔
      (trimChars (gasLimitToStr inp).toList ≠ [] ∧
        ∃ g, numberOf inp = some g ∧ g ≠ 0)) ∧
    (∀ inp g, parseGasLimit inp = Except.ok g → numberOf inp = some g) ∧
    parseGasLimit (GasLimitInput.str "0") =
      Except.error "Gas Limit is not valid gasLimit=0" ∧
    parseGasLimit (GasLimitInput.str "30000000") = Except.ok 30000000 ∧
    parseGasLimit (GasLimitInput.str "") = Except.error "Not valid Gas Limit" ∧
    parseGasLimit (GasLimitInput.str "abc") =
      Except.error "Gas Limit is not valid gasLimit=NaN" := by
  refine ⟨?_, ?_, rfl, rfl, rfl, rfl⟩
  · intro inp
    constructor
    · rintro ⟨g, hg⟩
      rw [parseGasLimit] at hg
      split at hg
      · cases hg
      · rename_i h1
        refine ⟨h1, ?_⟩
        split at hg
        · cases hg
        · rename_i g' hn
          split at hg
          · cases hg
          · rename_i hg0
            cases hg
            exact ⟨_, hn, hg0⟩
    · rintro ⟨h1, g', hn, hg0⟩
      refine ⟨g', ?_⟩
      rw [parseGasLimit, if_neg h1, hn]
      simp [hg0]
  · intro inp g h
    rw [parseGasLimit] at h
    split at h
    · cases h
    · split at h
      · cases h
      · rename_i g' hn
        split at h
        · cases h
        · cases h
          exact hn

/-- Witness for the amended C3 theorem: applies it at the concrete input
`"7"`, discharging its success hypothesis by evaluation. -/
theorem parseGasLimit_validation_witness :
    numberOf (GasLimitInput.str "7") = some 7 :=
  parseGasLimit_validation.2.1 (GasLimitInput.str "7") 7 rfl

/-! Wire request shapes (`ReqTypes`, routes.ts lines 227-253) and the
request serializers (`getReqSerializers`, lines 255-327). -/

/-- Body of the import-keystores request. -/
structure ImportKeystoresReq where
  keystores : List String
  passwords : List String
  slashing_protection : Option String
deriving DecidableEq

/-- Body of the delete-keys and delete-remote-keys requests. -/
structure PubkeysReq where
  pubkeys : List String
deriving DecidableEq

/-- A remote signer reference as submitted on import (`pubkey` and `url`
projection of `SignerDefinition`). -/
structure RemoteSignerRef where
  pubkey : String
  url : String
deriving DecidableEq

/-- Body of the import-remote-keys request. -/
structure ImportRemoteKeysReq where
  remote_keys : List RemoteSignerRef
deriving DecidableEq

/-- Request of the routes that take only the `{pubkey}` path parameter. -/
structure PubkeyParamReq where
  pubkey : String
deriving DecidableEq

/-- Request of set-fee-recipient: `{pubkey}` path parameter and
`{ethaddress}` body. -/
structure SetFeeRecipientReq where
  pubkey : String
  ethaddress : String
deriving DecidableEq

/-- Request of set-gas-limit: `{pubkey}` path parameter and
`{gas_limit: string}` body. -/
structure SetGasLimitReq where
  pubkey : String
  gas_limit : String
deriving DecidableEq

/-- Dynamic JSON schema tags attached to each serializer. -/
inductive SchemaKind
  | Object
  | StringRequired
deriving DecidableEq

/-- Schema of one request: per-parameter tags and an optional body tag. -/
structure ReqSchema where
  params : List (String × SchemaKind)
  body : Option SchemaKind
deriving DecidableEq

/-- One operation's parameter serializer: `writeReq` encodes typed
arguments into the wire request, `parseReq` decodes a wire request back
(propagating validation errors, as `parseGasLimit` can throw). -/
structure ReqSerializer (Args Wire : Type) where
  writeReq : Args → Wire
  parseReq : Wire → Except String Args

/-- Modelled from the spec: `reqEmpty` from the api utils (imported by the
routes module but not under src/), the serializer of the operations that
take no parameters: it writes the empty request and parses no arguments. -/
def reqEmpty : ReqSerializer Unit Unit :=
  ⟨fun _ => (), fun _ => Except.ok ()⟩

/-- The serializer record returned by `getReqSerializers`, one field per
operation of the `Api` type. -/
structure KeymanagerReqSerializers where
  listKeys : ReqSerializer Unit Unit
  importKeystores :
    ReqSerializer (List String × List String × Option String) ImportKeystoresReq
  deleteKeys : ReqSerializer (List String) PubkeysReq
  listRemoteKeys : ReqSerializer Unit Unit
  importRemoteKeys : ReqSerializer (List RemoteSignerRef) ImportRemoteKeysReq
  deleteRemoteKeys : ReqSerializer (List String) PubkeysReq
  listFeeRecipient : ReqSerializer String PubkeyParamReq
  setFeeRecipient : ReqSerializer (String × String) SetFeeRecipientReq
  deleteFeeRecipient : ReqSerializer String PubkeyParamReq
  getGasLimit : ReqSerializer String PubkeyParamReq
  setGasLimit : ReqSerializer (String × Int) SetGasLimitReq
  deleteGasLimit : ReqSerializer String PubkeyParamReq

/-- Embedding of `getReqSerializers` (routes.ts lines 255-327). The
set-gas-limit encoder renders the gas limit with `toString(10)` and its
decoder applies `parseGasLimit` to the `gas_limit` body field. -/
def getReqSerializers : KeymanagerReqSerializers :=
  ⟨reqEmpty,
   ⟨fun a => ⟨a.1, a.2.1, a.2.2⟩,
    fun w => Except.ok (w.keystores, w.passwords, w.slashing_protection)⟩,
   ⟨fun a => ⟨a⟩, fun w => Except.ok w.pubkeys⟩,
   reqEmpty,
   ⟨fun a => ⟨a⟩, fun w => Except.ok w.remote_keys⟩,
   ⟨fun a => ⟨a⟩, fun w => Except.ok w.pubkeys⟩,
   ⟨fun p => ⟨p⟩, fun w => Except.ok w.pubkey⟩,
   ⟨fun a => ⟨a.1, a.2⟩, fun w => Except.ok (w.pubkey, w.ethaddress)⟩,
   ⟨fun p => ⟨p⟩, fun w => Except.ok w.pubkey⟩,
   ⟨fun p => ⟨p⟩, fun w => Except.ok w.pubkey⟩,
   ⟨fun a => ⟨a.1, intToDecimalStr a.2⟩,
    fun w => (parseGasLimit (GasLimitInput.str w.gas_limit)).map
      (fun g => (w.pubkey, g))⟩,
   ⟨fun p => ⟨p⟩, fun w => Except.ok w.pubkey⟩⟩

/-- Decoding after encoding recovers the typed arguments. -/
def parsesWrite {A W : Type} (rs : ReqSerializer A W) : Prop :=
  ∀ a, rs.parseReq (rs.writeReq a) = Except.ok a

/-- Encoding the decoded arguments reproduces the wire request. -/
def writesParse {A W : Type} (rs : ReqSerializer A W) : Prop :=
  ∀ w, (rs.parseReq w).map rs.writeReq = Except.ok w

/-- C2 counterexample: the round-trip claim fails on the set-gas-limit
serializer. Encoding the typed arguments `("0xa", 0)` yields the body
`"0"`, which `parseGasLimit` rejects, so decode∘encode is not the
identity; and the wire body `"007"` decodes to `7` but re-encodes to `"7"`,
so encode∘decode is not the identity either. -/
theorem setGasLimit_roundTrip_counterexample :
    getReqSerializers.setGasLimit.parseReq
        (getReqSerializers.setGasLimit.writeReq ("0xa", 0)) ≠
      Except.ok ("0xa", 0) ∧
    (getReqSerializers.setGasLimit.parseReq ⟨"0xa", "007"⟩).map
        getReqSerializers.setGasLimit.writeReq ≠
      Except.ok (⟨"0xa", "007"⟩ : SetGasLimitReq) := by
  constructor
  · intro h
    rw [show getReqSerializers.setGasLimit.writeReq ("0xa", 0) =
        (⟨"0xa", intToDecimalStr 0⟩ : SetGasLimitReq) from rfl] at h
    rw [show (intToDecimalStr 0) = "0" from rfl] at h
    cases h
  · intro h
    rw [show (getReqSerializers.setGasLimit.parseReq ⟨"0xa", "007"⟩).map
          getReqSerializers.setGasLimit.writeReq =
        Except.ok (⟨"0xa", intToDecimalStr 7⟩ : SetGasLimitReq) from rfl] at h
    rw [show (intToDecimalStr 7) = "7" from rfl] at h
    have h2 : ("7" : String) = "007" :=
      congrArg SetGasLimitReq.gas_limit (Except.ok.inj h)
    exact absurd h2 (by decide)

/-- C2 (amended): for every operation other than set-gas-limit, decoding is
a two-sided inverse of encoding; for set-gas-limit, decode∘encode is the
identity on every pair with a nonzero gas limit, and encode∘decode
reproduces a wire request exactly when its `gas_limit` body field is the
canonical base-10 rendering of its numeric value. -/
theorem getReqSerializers_roundTrip :
    (∀ p (g : Int), g ≠ 0 →
      getReqSerializers.setGasLimit.parseReq
          (getReqSerializers.setGasLimit.writeReq (p, g)) =
        Except.ok (p, g)) ∧
    (∀ (w : SetGasLimitReq) p g,
      getReqSerializers.setGasLimit.parseReq w = Except.ok (p, g) →
      w.gas_limit = intToDecimalStr g →
      getReqSerializers.setGasLimit.writeReq (p, g) = w) ∧
    parsesWrite getReqSerializers.listKeys ∧
    writesParse getReqSerializers.listKeys ∧
    parsesWrite getReqSerializers.importKeystores ∧
    writesParse getReqSerializers.importKeystores ∧
    parsesWrite getReqSerializers.deleteKeys ∧
    writesParse getReqSerializers.deleteKeys ∧
    parsesWrite getReqSerializers.listRemoteKeys ∧
    writesParse getReqSerializers.listRemoteKeys ∧
    parsesWrite getReqSerializers.importRemoteKeys ∧
    writesParse getReqSerializers.importRemoteKeys ∧
    parsesWrite getReqSerializers.deleteRemoteKeys ∧
    writesParse getReqSerializers.deleteRemoteKeys ∧
    parsesWrite getReqSerializers.listFeeRecipient ∧
    writesParse getReqSerializers.listFeeRecipient ∧
    parsesWrite getReqSerializers.setFeeRecipient ∧
    writesParse getReqSerializers.setFeeRecipient ∧
    parsesWrite getReqSerializers.deleteFeeRecipient ∧
    writesParse getReqSerializers.deleteFeeRecipient ∧
    parsesWrite getReqSerializers.getGasLimit ∧
    writesParse getReqSerializers.getGasLimit ∧
    parsesWrite getReqSerializers.deleteGasLimit ∧
    writesParse getReqSerializers.deleteGasLimit := by
  refine ⟨?_, ?_, fun a => rfl, fun w => rfl, fun a => rfl, fun w => rfl,
    fun a => rfl, fun w => rfl, fun a => rfl, fun w => rfl, fun a => rfl,
    fun w => rfl, fun a => rfl, fun w => rfl, fun a => rfl, fun w => rfl,
    fun a => rfl, fun w => rfl, fun a => rfl, fun w => rfl, fun a => rfl,
    fun w => rfl, fun a => rfl, fun w => rfl⟩
  · intro p g hg
    show (parseGasLimit (GasLimitInput.str (intToDecimalStr g))).map
        (fun g' => (p, g')) = Except.ok (p, g)
    rw [parseGasLimit_canonical g hg]
    rfl
  · intro w p g h hcanon
    have hw : getReqSerializers.setGasLimit.writeReq (p, g) =
        (⟨p, intToDecimalStr g⟩ : SetGasLimitReq) := rfl
    rw [hw, ← hcanon]
    have hp : w.pubkey = p := by
      revert h
      show (parseGasLimit (GasLimitInput.str w.gas_limit)).map
          (fun g' => (w.pubkey, g')) = Except.ok (p, g) → w.pubkey = p
      cases parseGasLimit (GasLimitInput.str w.gas_limit) with
      | error e => intro h; cases h
      | ok g' =>
        intro h
        simp only [Except.map] at h
        cases h
        rfl
    rw [← hp]

/-- Witness for the amended C2 theorem: applies its set-gas-limit conjunct
at the concrete arguments `("0xab", 5)`, discharging the nonzero
hypothesis. -/
theorem getReqSerializers_roundTrip_witness :
    getReqSerializers.setGasLimit.parseReq
        (getReqSerializers.setGasLimit.writeReq ("0xab", 5)) =
      Except.ok ("0xab", 5) :=
  getReqSerializers_roundTrip.1 "0xab" 5 (by decide)

/-! Status taxonomy (routes.ts lines 14-54). -/

/-- Outcome of importing one local keystore (`ImportStatus`). -/
inductive ImportStatus
  | imported
  | duplicate
  | error
deriving DecidableEq

/-- Wire string value of each `ImportStatus` member. -/
def ImportStatus.value : ImportStatus → String
  | .imported => "imported"
  | .duplicate => "duplicate"
  | .error => "error"

/-- The members of `ImportStatus`, in declaration order. -/
def ImportStatus.values : List ImportStatus := [.imported, .duplicate, .error]

/-- Outcome of deleting one local key (`DeletionStatus`). -/
inductive DeletionStatus
  | deleted
  | not_active
  | not_found
  | error
deriving DecidableEq

/-- Wire string value of each `DeletionStatus` member. -/
def DeletionStatus.value : DeletionStatus → String
  | .deleted => "deleted"
  | .not_active => "not_active"
  | .not_found => "not_found"
  | .error => "error"

/-- The members of `DeletionStatus`, in declaration order. -/
def DeletionStatus.values : List DeletionStatus :=
  [.deleted, .not_active, .not_found, .error]

/-- Outcome of importing one remote key (`ImportRemoteKeyStatus`). -/
inductive ImportRemoteKeyStatus
  | imported
  | duplicate
  | error
deriving DecidableEq

/-- Wire string value of each `ImportRemoteKeyStatus` member. -/
def ImportRemoteKeyStatus.value : ImportRemoteKeyStatus → String
  | .imported => "imported"
  | .duplicate => "duplicate"
  | .error => "error"

/-- The members of `ImportRemoteKeyStatus`, in declaration order. -/
def ImportRemoteKeyStatus.values : List ImportRemoteKeyStatus :=
  [.imported, .duplicate, .error]

/-- Outcome of deleting one remote key (`DeleteRemoteKeyStatus`). -/
inductive DeleteRemoteKeyStatus
  | deleted
  | not_found
  | error
deriving DecidableEq

/-- Wire string value of each `DeleteRemoteKeyStatus` member. -/
def DeleteRemoteKeyStatus.value : DeleteRemoteKeyStatus → String
  | .deleted => "deleted"
  | .not_found => "not_found"
  | .error => "error"

/-- The members of `DeleteRemoteKeyStatus`, in declaration order. -/
def DeleteRemoteKeyStatus.values : List DeleteRemoteKeyStatus :=
  [.deleted, .not_found, .error]

/-- C6: the status taxonomy is exactly four closed enumerations with
exactly the stated members and no others: local import
`imported | duplicate | error`, local delete
`deleted | not_active | not_found | error`, remote import
`imported | duplicate | error`, remote delete
`deleted | not_found | error`. -/
theorem statusTaxonomy_closed :
    (∀ s : ImportStatus, s ∈ ImportStatus.values) ∧
    ImportStatus.values.Nodup ∧
    ImportStatus.values.map ImportStatus.value =
      ["imported", "duplicate", "error"] ∧
    (∀ s : DeletionStatus, s ∈ DeletionStatus.values) ∧
    DeletionStatus.values.Nodup ∧
    DeletionStatus.values.map DeletionStatus.value =
      ["deleted", "not_active", "not_found", "error"] ∧
    (∀ s : ImportRemoteKeyStatus, s ∈ ImportRemoteKeyStatus.values) ∧
    ImportRemoteKeyStatus.values.Nodup ∧
    ImportRemoteKeyStatus.values.map ImportRemoteKeyStatus.value =
      ["imported", "duplicate", "error"] ∧
    (∀ s : DeleteRemoteKeyStatus, s ∈ DeleteRemoteKeyStatus.values) ∧
    DeleteRemoteKeyStatus.values.Nodup ∧
    DeleteRemoteKeyStatus.values.map DeleteRemoteKeyStatus.value =
      ["deleted", "not_found", "error"] :=
  ⟨fun s => by cases s <;> decide, by decide, by decide,
   fun s => by cases s <;> decide, by decide, by decide,
   fun s => by cases s <;> decide, by decide, by decide,
   fun s => by cases s <;> decide, by decide, by decide⟩

/-! Route table (`routesData`, routes.ts lines 207-223). -/

/-- The operations declared by the `Api` type, one constructor per method,
in declaration order. -/
inductive ApiOperation
  | listKeys
  | importKeystores
  | deleteKeys
  | listRemoteKeys
  | importRemoteKeys
  | deleteRemoteKeys
  | listFeeRecipient
  | setFeeRecipient
  | deleteFeeRecipient
  | getGasLimit
  | setGasLimit
  | deleteGasLimit
deriving DecidableEq

/-- All twelve `Api` operations, in declaration order. -/
def ApiOperation.all : List ApiOperation :=
  [.listKeys, .importKeystores, .deleteKeys,
   .listRemoteKeys, .importRemoteKeys, .deleteRemoteKeys,
   .listFeeRecipient, .setFeeRecipient, .deleteFeeRecipient,
   .getGasLimit, .setGasLimit, .deleteGasLimit]

/-- The HTTP methods used by the route table. -/
inductive HttpMethod
  | GET
  | POST
  | DELETE
deriving DecidableEq

/-- One route table entry: url template, method, and the success status
code when it overrides the default (`statusOk`). -/
structure RouteDef where
  url : String
  method : HttpMethod
  statusOk : Option Nat
deriving DecidableEq

/-- Embedding of `routesData` (routes.ts lines 207-223), in source order. -/
def routesData : List (ApiOperation × RouteDef) :=
  [(.listKeys, ⟨"/eth/v1/keystores", .GET, none⟩),
   (.importKeystores, ⟨"/eth/v1/keystores", .POST, none⟩),
   (.deleteKeys, ⟨"/eth/v1/keystores", .DELETE, none⟩),
   (.listRemoteKeys, ⟨"/eth/v1/remotekeys", .GET, none⟩),
   (.importRemoteKeys, ⟨"/eth/v1/remotekeys", .POST, none⟩),
   (.deleteRemoteKeys, ⟨"/eth/v1/remotekeys", .DELETE, none⟩),
   (.listFeeRecipient, ⟨"/eth/v1/validator/{pubkey}/feerecipient", .GET, none⟩),
   (.setFeeRecipient, ⟨"/eth/v1/validator/{pubkey}/feerecipient", .POST, some 202⟩),
   (.deleteFeeRecipient, ⟨"/eth/v1/validator/{pubkey}/feerecipient", .DELETE, some 204⟩),
   (.getGasLimit, ⟨"/eth/v1/validator/{pubkey}/gas_limit", .GET, none⟩),
   (.setGasLimit, ⟨"/eth/v1/validator/{pubkey}/gas_limit", .POST, some 202⟩),
   (.deleteGasLimit, ⟨"/eth/v1/validator/{pubkey}/gas_limit", .DELETE, some 204⟩)]

/-- The route table entry of an operation, when present. -/
def routeOf (op : ApiOperation) : Option RouteDef :=
  (routesData.find? (fun e => e.1 == op)).map (fun e => e.2)

/-- C4 counterexample: the claim says exactly three operations override to
202 and exactly three to 204, but the route table has exactly two of
each. -/
theorem routesData_statusOk_counts :
    (routesData.filter (fun e => e.2.statusOk == some 202)).length = 2 ∧
    ¬(routesData.filter (fun e => e.2.statusOk == some 202)).length = 3 ∧
    (routesData.filter (fun e => e.2.statusOk == some 204)).length = 2 ∧
    ¬(routesData.filter (fun e => e.2.statusOk == some 204)).length = 3 := by
  decide

/-- C4 (amended): every route's success status code is the default except
for overrides: exactly two operations override to 202 (set-fee-recipient
and set-gas-limit) and exactly two override to 204 (delete-fee-recipient
and delete-gas-limit); the remaining eight routes use the default. -/
theorem routesData_statusOk_overrides :
    (routesData.filter (fun e => e.2.statusOk == some 202)).map Prod.fst =
      [ApiOperation.setFeeRecipient, ApiOperation.setGasLimit] ∧
    (routesData.filter (fun e => e.2.statusOk == some 204)).map Prod.fst =
      [ApiOperation.deleteFeeRecipient, ApiOperation.deleteGasLimit] ∧
    (routesData.filter (fun e => e.2.statusOk == none)).map Prod.fst =
      [ApiOperation.listKeys, ApiOperation.importKeystores,
       ApiOperation.deleteKeys, ApiOperation.listRemoteKeys,
       ApiOperation.importRemoteKeys, ApiOperation.deleteRemoteKeys,
       ApiOperation.listFeeRecipient, ApiOperation.getGasLimit] := by
  decide

/-- C8: the route table is in 1:1 correspondence with the `Api`
operations: its keys are exactly the twelve operations, each appearing
exactly once. -/
theorem routesData_one_to_one :
    routesData.map Prod.fst = ApiOperation.all ∧
    (∀ op : ApiOperation, op ∈ ApiOperation.all) ∧
    ApiOperation.all.Nodup :=
  ⟨by decide, fun op => by cases op <;> decide, by decide⟩

/-- C10: the (method, url) pairs of the twelve routes are pairwise
distinct, although the three keystore operations share the url
`/eth/v1/keystores` and the three remote-key operations share
`/eth/v1/remotekeys`, so dispatch by method plus path is unambiguous. -/
theorem routesData_dispatch_unambiguous :
    (routesData.map (fun e => (e.2.method, e.2.url))).Nodup ∧
    (routesData.filter (fun e => e.2.url == "/eth/v1/keystores")).map Prod.fst =
      [ApiOperation.listKeys, ApiOperation.importKeystores,
       ApiOperation.deleteKeys] ∧
    (routesData.filter (fun e => e.2.url == "/eth/v1/remotekeys")).map Prod.fst =
      [ApiOperation.listRemoteKeys, ApiOperation.importRemoteKeys,
       ApiOperation.deleteRemoteKeys] ∧
    routesData.length = 12 := by
  decide

/-! Return-type encodings (`getReturnTypes`, routes.ts lines 330-351). -/

/-- The JSON naming conventions used by the return-type encoders. -/
inductive JsonCase
  | snake
  | eth2
deriving DecidableEq

/-- The ssz field types appearing in the gas-limit return container. -/
inductive SszFieldType
  | stringType
  | uintNum64
deriving DecidableEq

/-- A scalar value carried by a container field. -/
inductive SszValue
  | str (s : String)
  | num (n : Nat)
deriving DecidableEq

/-- Validity of a value at a field type: `uintNum64` admits exactly the
unsigned 64-bit range. -/
def SszFieldType.validValue : SszFieldType → SszValue → Bool
  | .stringType, .str _ => true
  | .uintNum64, .num n => decide (n < 2 ^ 64)
  | _, _ => false

/-- A return-type encoding: plain structured JSON in a naming convention,
or a fixed-layout typed container (`ContainerData`) whose field list is
order-significant. -/
inductive ReturnTypeEnc
  | jsonType (jsonCase : JsonCase)
  | containerData (fields : List (String × SszFieldType)) (jsonCase : JsonCase)
deriving DecidableEq

/-- Embedding of `getReturnTypes` (routes.ts lines 330-351): one entry per
operation that returns data, in source order. -/
def getReturnTypes : List (ApiOperation × ReturnTypeEnc) :=
  [(.listKeys, .jsonType .snake),
   (.importKeystores, .jsonType .snake),
   (.deleteKeys, .jsonType .snake),
   (.listRemoteKeys, .jsonType .snake),
   (.importRemoteKeys, .jsonType .snake),
   (.deleteRemoteKeys, .jsonType .snake),
   (.listFeeRecipient, .jsonType .snake),
   (.getGasLimit,
    .containerData [("pubkey", .stringType), ("gasLimit", .uintNum64)] .eth2)]

/-- C7: among the return-type encodings, get-gas-limit is the unique
exception: its result is a fixed-layout typed container in the "eth2"
convention with `gasLimit` constrained to the unsigned 64-bit range, while
every other operation's result is plain JSON in the "snake" convention. -/
theorem getGasLimit_unique_container :
    (getReturnTypes.filter
        (fun e => !(e.2 == ReturnTypeEnc.jsonType JsonCase.snake))).map
      Prod.fst = [ApiOperation.getGasLimit] ∧
    (ApiOperation.getGasLimit,
      ReturnTypeEnc.containerData
        [("pubkey", SszFieldType.stringType),
         ("gasLimit", SszFieldType.uintNum64)] JsonCase.eth2) ∈
      getReturnTypes ∧
    SszFieldType.uintNum64.validValue (SszValue.num (2 ^ 64 - 1)) = true ∧
    SszFieldType.uintNum64.validValue (SszValue.num (2 ^ 64)) = false ∧
    getReturnTypes.length = 8 := by
  decide

/-! Wire request shapes (`ReqTypes`). -/

/-- The field types occurring in the wire request shapes. -/
inductive WireType
  | str
  | strList
  | strOption
  | remoteSignerList
deriving DecidableEq

/-- The shape of one wire request: named path parameters and named body
fields, each with its type. -/
structure ReqShape where
  params : List (String × WireType)
  body : List (String × WireType)
deriving DecidableEq

/-- Embedding of `ReqTypes` (routes.ts lines 227-253) as shape
descriptors; the optional `slashing_protection` body field is
`strOption`. -/
def reqTypes : ApiOperation → ReqShape
  | .listKeys => ⟨[], []⟩
  | .importKeystores =>
    ⟨[], [("keystores", .strList), ("passwords", .strList),
          ("slashing_protection", .strOption)]⟩
  | .deleteKeys => ⟨[], [("pubkeys", .strList)]⟩
  | .listRemoteKeys => ⟨[], []⟩
  | .importRemoteKeys => ⟨[], [("remote_keys", .remoteSignerList)]⟩
  | .deleteRemoteKeys => ⟨[], [("pubkeys", .strList)]⟩
  | .listFeeRecipient => ⟨[("pubkey", .str)], []⟩
  | .setFeeRecipient => ⟨[("pubkey", .str)], [("ethaddress", .str)]⟩
  | .deleteFeeRecipient => ⟨[("pubkey", .str)], []⟩
  | .getGasLimit => ⟨[("pubkey", .str)], []⟩
  | .setGasLimit => ⟨[("pubkey", .str)], [("gas_limit", .str)]⟩
  | .deleteGasLimit => ⟨[("pubkey", .str)], []⟩

/-- The HTTP method of an operation's route, when present. -/
def methodOf (op : ApiOperation) : Option HttpMethod :=
  (routesData.find? (fun e => e.1 == op)).map (fun e => e.2.method)

/-- C9: the wire request shapes are exactly as stated: import-keystores is
a POST with body `{keystores: string[], passwords: string[],
slashing_protection?: string}`; delete-keys a DELETE with body
`{pubkeys: string[]}`; import-remote-keys a POST with body
`{remote_keys: {pubkey, url}[]}`; delete-remote-keys a DELETE with body
`{pubkeys: string[]}`; and the fee-recipient/gas-limit routes take
`{pubkey}` as a path parameter, with set bodies `{ethaddress}` and
`{gas_limit: string}` respectively. -/
theorem reqTypes_wire_shapes :
    reqTypes ApiOperation.importKeystores =
      ⟨[], [("keystores", WireType.strList), ("passwords", WireType.strList),
            ("slashing_protection", WireType.strOption)]⟩ ∧
    methodOf ApiOperation.importKeystores = some HttpMethod.POST ∧
    reqTypes ApiOperation.deleteKeys = ⟨[], [("pubkeys", WireType.strList)]⟩ ∧
    methodOf ApiOperation.deleteKeys = some HttpMethod.DELETE ∧
    reqTypes ApiOperation.importRemoteKeys =
      ⟨[], [("remote_keys", WireType.remoteSignerList)]⟩ ∧
    methodOf ApiOperation.importRemoteKeys = some HttpMethod.POST ∧
    reqTypes ApiOperation.deleteRemoteKeys =
      ⟨[], [("pubkeys", WireType.strList)]⟩ ∧
    methodOf ApiOperation.deleteRemoteKeys = some HttpMethod.DELETE ∧
    reqTypes ApiOperation.listFeeRecipient = ⟨[("pubkey", WireType.str)], []⟩ ∧
    reqTypes ApiOperation.setFeeRecipient =
      ⟨[("pubkey", WireType.str)], [("ethaddress", WireType.str)]⟩ ∧
    reqTypes ApiOperation.deleteFeeRecipient =
      ⟨[("pubkey", WireType.str)], []⟩ ∧
    reqTypes ApiOperation.getGasLimit = ⟨[("pubkey", WireType.str)], []⟩ ∧
    reqTypes ApiOperation.setGasLimit =
      ⟨[("pubkey", WireType.str)], [("gas_limit", WireType.str)]⟩ ∧
    reqTypes ApiOperation.deleteGasLimit =
      ⟨[("pubkey", WireType.str)], []⟩ := by
  decide

/-! Delete-keys slashing-protection contract. The `deleteKeys`
implementation is not under src/ (the routes module only declares its
signature and contract in the `Api` type's doc comment), so it is modelled
from the spec below. -/

/-- Modelled from the spec: the keymanager's persistent state as seen by
`deleteKeys` — the pubkeys currently able to sign, and the retained
slashing-protection records keyed by pubkey (the store owns them; the API
layer only reads them). -/
structure KeymanagerState where
  active : List String
  slashingData : List (String × String)
deriving DecidableEq

/-- Looks up the retained slashing-protection record of a pubkey. -/
def spLookup (l : List (String × String)) (p : String) : Option String :=
  (l.find? (fun e => e.1 == p)).map (fun e => e.2)

/-- The slashing-protection record of a pubkey in a state. -/
def lookupSP (st : KeymanagerState) (p : String) : Option String :=
  spLookup st.slashingData p

/-- Modelled from the spec: every key able to sign has a (possibly empty)
slashing-protection record in the store — imports put the
slashing-protection context in place before any signing occurs. -/
def WF (st : KeymanagerState) : Prop :=
  st.active.all (fun p => (lookupSP st p).isSome) = true

instance (st : KeymanagerState) : Decidable (WF st) := by
  unfold WF; infer_instance

/-- Modelled from the spec: deleting one pubkey. An active key is
irrevocably disabled, then its slashing-protection record is fetched and
retained (never erased) and status `deleted` is returned with the record;
an inactive key with a retained record yields `not_active` with that same
record; an unknown key yields `not_found` with no record. -/
def deleteOneKey (st : KeymanagerState) (p : String) :
    DeletionStatus × Option String × KeymanagerState :=
  if p ∈ st.active then
    (DeletionStatus.deleted, lookupSP st p,
     ⟨st.active.filter (fun q => q != p), st.slashingData⟩)
  else
    match lookupSP st p with
    | some r => (DeletionStatus.not_active, some r, st)
    | none => (DeletionStatus.not_found, none, st)

/-- Modelled from the spec: `deleteKeys` processes the requested pubkeys in
order, one result per input item, threading the state; the response pairs
each per-item status with the slashing-protection record returned for that
item. -/
def deleteKeys (st : KeymanagerState) (pks : List String) :
    List (DeletionStatus × Option String) × KeymanagerState :=
  match pks with
  | [] => ([], st)
  | p :: rest =>
    (((deleteOneKey st p).1, (deleteOneKey st p).2.1) ::
        (deleteKeys (deleteOneKey st p).2.2 rest).1,
     (deleteKeys (deleteOneKey st p).2.2 rest).2)

lemma deleteOneKey_slashingData (st : KeymanagerState) (p : String) :
    (deleteOneKey st p).2.2.slashingData = st.slashingData := by
  rw [deleteOneKey]
  by_cases hp : p ∈ st.active
  · rw [if_pos hp]
  · rw [if_neg hp]
    cases lookupSP st p <;> rfl

lemma deleteOneKey_active_sub (st : KeymanagerState) (p q : String)
    (h : q ∈ (deleteOneKey st p).2.2.active) : q ∈ st.active := by
  rw [deleteOneKey] at h
  by_cases hp : p ∈ st.active
  · rw [if_pos hp] at h
    exact (List.mem_filter.mp h).1
  · rw [if_neg hp] at h
    cases hl : lookupSP st p <;> rw [hl] at h <;> exact h

lemma lookupSP_congr {st st' : KeymanagerState} (p : String)
    (h : st'.slashingData = st.slashingData) : lookupSP st' p = lookupSP st p := by
  rw [lookupSP, lookupSP, h]

lemma WF_deleteOneKey (st : KeymanagerState) (p : String) (h : WF st) :
    WF (deleteOneKey st p).2.2 := by
  have h' := List.all_eq_true.mp h
  apply List.all_eq_true.mpr
  intro q hq
  rw [lookupSP_congr q (deleteOneKey_slashingData st p)]
  exact h' q (deleteOneKey_active_sub st p q hq)

/-- C1: slashing-protection records are retained, not consumed, by a
delete call: after a first `deleteKeys` call returns `deleted` for an
active pubkey together with its slashing-protection record, an identical
second call returns `not_active` (never `deleted` again) for that pubkey
and still returns the same retained record. -/
theorem deleteKeys_retains_protection (st : KeymanagerState) (p : String)
    (hwf : WF st) (hp : p ∈ st.active) :
    ∃ r st1,
      deleteKeys st [p] = ([(DeletionStatus.deleted, some r)], st1) ∧
      (deleteKeys st1 [p]).1 = [(DeletionStatus.not_active, some r)] := by
  have h' := List.all_eq_true.mp hwf p hp
  rw [Option.isSome_iff_exists] at h'
  obtain ⟨r, hr⟩ := h'
  refine ⟨r, ⟨st.active.filter (fun q => q != p), st.slashingData⟩, ?_, ?_⟩
  · rw [deleteKeys, deleteKeys, deleteOneKey, if_pos hp, hr]
  · have hnp : p ∉ st.active.filter (fun q => q != p) := by
      intro hmem
      have := (List.mem_filter.mp hmem).2
      simp at this
    have hr1 : lookupSP ⟨st.active.filter (fun q => q != p), st.slashingData⟩ p =
        some r := hr
    rw [deleteKeys, deleteKeys, deleteOneKey, if_neg hnp, hr1]

/-- Witness for C1: applies the theorem at a concrete one-key state,
discharging the well-formedness and activeness hypotheses by
evaluation. -/
theorem deleteKeys_retains_protection_witness :
    ∃ r st1,
      deleteKeys ⟨["0xaa"], [("0xaa", "histA")]⟩ ["0xaa"] =
        ([(DeletionStatus.deleted, some r)], st1) ∧
      (deleteKeys st1 ["0xaa"]).1 = [(DeletionStatus.not_active, some r)] :=
  deleteKeys_retains_protection ⟨["0xaa"], [("0xaa", "histA")]⟩ "0xaa"
    (by decide) (by decide)

/-- C5: in every `deleteKeys` response over a well-formed state, a
slashing-protection record is present for exactly those requested pubkeys
whose per-item status is `deleted` or `not_active`, and absent for those
with status `not_found` (or any other status). -/
theorem deleteKeys_slashing_presence (st : KeymanagerState)
    (pks : List String) (hwf : WF st) :
    ∀ res ∈ (deleteKeys st pks).1,
      res.2 ≠ none ↔
        (res.1 = DeletionStatus.deleted ∨ res.1 = DeletionStatus.not_active) := by
  induction pks generalizing st with
  | nil =>
    intro res hres
    rw [deleteKeys] at hres
    cases hres
  | cons p rest ih =>
    intro res hres
    rw [deleteKeys] at hres
    rcases List.mem_cons.mp hres with hhead | htail
    · subst hhead
      rw [deleteOneKey]
      by_cases hp : p ∈ st.active
      · rw [if_pos hp]
        have h' := List.all_eq_true.mp hwf p hp
        rw [Option.isSome_iff_exists] at h'
        obtain ⟨r, hr⟩ := h'
        simp [hr]
      · rw [if_neg hp]
        cases hl : lookupSP st p
        · simp
        · simp
    · exact ih (deleteOneKey st p).2.2 (WF_deleteOneKey st p hwf) res htail

/-- Witness for C5: applies the theorem at a concrete state and request
list realizing the claim's scenario — deleting `[A (active), B (unknown)]`
yields `[deleted, not_found]` with a slashing-protection record present
only for A. -/
theorem deleteKeys_slashing_presence_witness :
    (deleteKeys ⟨["0xaa"], [("0xaa", "histA")]⟩ ["0xaa", "0xbb"]).1 =
      [(DeletionStatus.deleted, some "histA"),
       (DeletionStatus.not_found, none)] ∧
    ∀ res ∈ (deleteKeys ⟨["0xaa"], [("0xaa", "histA")]⟩ ["0xaa", "0xbb"]).1,
      res.2 ≠ none ↔
        (res.1 = DeletionStatus.deleted ∨ res.1 = DeletionStatus.not_active) :=
  ⟨by decide,
   deleteKeys_slashing_presence ⟨["0xaa"], [("0xaa", "histA")]⟩
     ["0xaa", "0xbb"] (by decide)⟩

end Keymanager
